import Mathlib

/-!
# Verification of the retention-center template engine of `admin-react`

This file embeds, in Lean 4, the message-template substitution engine and the
template-set merging logic found in `src/pages/RetentionCenter.tsx`:

* `applyVariables` embeds
  `template.replace(/\{(\w+)\}/g, (_, key) => variables[key] || "")`:
  a single left-to-right scan over the template; at each position the regex
  `\{(\w+)\}` is tried (an open brace, one or more word characters
  `[A-Za-z0-9_]`, then a close brace); a match is replaced by the context
  value of the captured name (the empty string when the name is absent,
  since `undefined || ""` and `"" || ""` both yield `""` in JavaScript),
  and scanning resumes after the matched span, never inside the inserted
  replacement; a non-match emits the current character and moves one
  position right.

* `mergeTemplates` and `defaultTemplates` embed the merge of a partial
  incoming payload `Partial<Record<ReminderChannel, Partial<Record<TemplateType, string>>>>`
  over the hardcoded default templates, field by field with the JavaScript
  `||` operator (whose only falsy string is `""`).

The scanner is written with an explicit fuel argument (the length of the
remaining input always bounds the fuel needed), keeping every definition
structurally recursive and hence evaluable by `decide`/`rfl`.
-/

/-- The character `{` (written via its code point to keep brace characters
out of the source text). -/
def lbrace : Char := Char.ofNat 123

/-- The character `}` (written via its code point). -/
def rbrace : Char := Char.ofNat 125

/-- JavaScript's `\w` character class (no `u` flag): `[A-Za-z0-9_]`. -/
def isWordChar (c : Char) : Bool :=
  (Char.ofNat 97 ≤ c && c ≤ Char.ofNat 122) ||
  (Char.ofNat 65 ≤ c && c ≤ Char.ofNat 90) ||
  (Char.ofNat 48 ≤ c && c ≤ Char.ofNat 57) ||
  c = Char.ofNat 95

/-- Attempt of the regex `\{(\w+)\}` at the current position.  On success it
returns the captured name (the maximal run of word characters after the open
brace, which must be non-empty and immediately followed by a close brace)
together with the input remaining after the matched span. -/
def matchToken (s : List Char) : Option (List Char × List Char) :=
  match s with
  | [] => none
  | c :: rest =>
    if c = lbrace then
      match rest.dropWhile isWordChar with
      | d :: tail =>
        if d = rbrace then
          if (rest.takeWhile isWordChar).isEmpty then none
          else some (rest.takeWhile isWordChar, tail)
        else none
      | [] => none
    else none

/-- The substitution context `Record<string, string>`, embedded as an
association list with string keys; `lookupVar` is JavaScript property read
`variables[key]` on such a record. -/
def lookupVar (vars : List (String × String)) (key : String) : Option String :=
  match vars with
  | [] => none
  | (k, v) :: rest => if k = key then some v else lookupVar rest key

/-- JavaScript `x || ""` for an optional string `x` (`variables[key] || ""`):
`undefined` gives `""`, and the only falsy string is `""`. -/
def jsOrEmpty (x : Option String) : String :=
  match x with
  | some v => if v = "" then "" else v
  | none => ""

/-- The scan of `String.prototype.replace` with the global regex
`/\{(\w+)\}/g` and callback `(_, key) => variables[key] || ""`, on the
character list of the template.  The fuel argument only forces structural
recursion; `fuel = s.length` always suffices (each step consumes at least
one character of `s`). -/
def applyAux : Nat → List (String × String) → List Char → List Char
  | 0, _, s => s
  | _ + 1, _, [] => []
  | fuel + 1, vars, c :: cs =>
    match matchToken (c :: cs) with
    | some (name, tail) =>
      (jsOrEmpty (lookupVar vars (String.mk name))).data ++ applyAux fuel vars tail
    | none => c :: applyAux fuel vars cs

/-- The scanner at its canonical fuel, on character lists. -/
def resolveList (vars : List (String × String)) (s : List Char) : List Char :=
  applyAux s.length vars s

/-- Embedding of `applyVariables` from `RetentionCenter.tsx`:
`template.replace(/\{(\w+)\}/g, (_, key) => variables[key] || "")`
(the source's parameter `variables` is spelled `vars` here because
`variables` is reserved in Lean). -/
def applyVariables (template : String) (vars : List (String × String)) : String :=
  String.mk (resolveList vars template.data)

/-- The string `"{" ++ x ++ "}"`: the literal span of a brace-delimited
token (or would-be token) named `x`. -/
def braced (x : String) : String :=
  String.mk (lbrace :: x.data ++ [rbrace])

/-- Decides whether `s` contains a substring matched by `\{(\w+)\}` (a
token-like substring: open brace, one or more word characters, close
brace). -/
def hasToken : List Char → Bool
  | [] => false
  | c :: cs => (matchToken (c :: cs)).isSome || hasToken cs

/-- Decides that no value of the context contains a token-like substring. -/
def ctxTokenFree (vars : List (String × String)) : Bool :=
  vars.all (fun p => !hasToken p.2.data)

/-- Decides that no value of the context contains a brace character. -/
def ctxBraceFree (vars : List (String × String)) : Bool :=
  vars.all (fun p => p.2.data.all (fun c => !(c = lbrace || c = rbrace)))

/-- State machine deciding that every brace character of the input belongs
to a token matched by `\{(\w+)\}`.  `none` is the outside-token mode;
`some seen` is the inside-token mode after an open brace, where `seen`
records whether at least one word character has been read. -/
def nsScan : Option Bool → List Char → Bool
  | none, [] => true
  | some _, [] => false
  | none, c :: cs =>
    if c = lbrace then nsScan (some false) cs
    else if c = rbrace then false
    else nsScan none cs
  | some seen, c :: cs =>
    if isWordChar c then nsScan (some true) cs
    else if c = rbrace then seen && nsScan none cs
    else false

/-- Decides that every brace character of the template belongs to a matched
token. -/
def noStrayBraces (s : List Char) : Bool :=
  nsScan none s

/-! ## The template store: channels, message types, defaults and merging -/

/-- Embeds `type ReminderChannel = "whatsapp" | "sms" | "email"`. -/
inductive ReminderChannel
  | whatsapp
  | sms
  | email
deriving DecidableEq

/-- Embeds `type TemplateType = "reminder" | "reactivation" | "waitlist_call"`. -/
inductive TemplateType
  | reminder
  | reactivation
  | waitlist_call
deriving DecidableEq

/-- Embeds `Record<TemplateType, string>`: the three templates of one channel. -/
structure TemplateSet where
  reminder : String
  reactivation : String
  waitlist_call : String
deriving DecidableEq

/-- Embeds `TemplateMap = Record<ReminderChannel, Record<TemplateType, string>>`. -/
structure TemplateMap where
  whatsapp : TemplateSet
  sms : TemplateSet
  email : TemplateSet
deriving DecidableEq

/-- Embeds `Partial<Record<TemplateType, string>>` for one channel of the incoming
payload. -/
structure IncomingSet where
  reminder : Option String
  reactivation : Option String
  waitlist_call : Option String
deriving DecidableEq

/-- Embeds `Partial<Record<ReminderChannel, Partial<Record<TemplateType, string>>>>`:
the incoming payload of `mergeTemplates`. -/
structure IncomingMap where
  whatsapp : Option IncomingSet
  sms : Option IncomingSet
  email : Option IncomingSet
deriving DecidableEq

/-- Field selection `set[ty]` on a full template set. -/
def TemplateSet.get (s : TemplateSet) : TemplateType → String
  | TemplateType.reminder => s.reminder
  | TemplateType.reactivation => s.reactivation
  | TemplateType.waitlist_call => s.waitlist_call

/-- Field selection `map[ch][ty]` on a full template map. -/
def TemplateMap.get (m : TemplateMap) (ch : ReminderChannel) (ty : TemplateType) : String :=
  match ch with
  | ReminderChannel.whatsapp => m.whatsapp.get ty
  | ReminderChannel.sms => m.sms.get ty
  | ReminderChannel.email => m.email.get ty

/-- Optional field selection on one incoming channel. -/
def IncomingSet.get (s : IncomingSet) : TemplateType → Option String
  | TemplateType.reminder => s.reminder
  | TemplateType.reactivation => s.reactivation
  | TemplateType.waitlist_call => s.waitlist_call

/-- The optional chain `incoming[ch]?.[ty]` used by `mergeTemplates`;
`none` when the channel or the field is absent from the payload. -/
def IncomingMap.get (m : IncomingMap) (ch : ReminderChannel) (ty : TemplateType) :
    Option String :=
  match ch with
  | ReminderChannel.whatsapp => m.whatsapp.bind (fun s => s.get ty)
  | ReminderChannel.sms => m.sms.bind (fun s => s.get ty)
  | ReminderChannel.email => m.email.bind (fun s => s.get ty)

/-- JavaScript `x || d` where `x` is `incoming[ch]?.[ty]` (possibly
`undefined`) and `d` a default string: `undefined` and `""` both fall back
to `d`. -/
def jsOrDefault (x : Option String) (d : String) : String :=
  match x with
  | some s => if s = "" then d else s
  | none => d

/-- The hardcoded `defaultTemplates` constant of `RetentionCenter.tsx`. -/
def defaultTemplates : TemplateMap where
  whatsapp :=
    { reminder :=
        "Olá, {patientName}. Lembrete da sua consulta na {clinicName} em {date} às {time} com {professional} para {procedure}. Responda 1 para confirmar."
      reactivation :=
        "Olá, {patientName}. Sentimos sua falta na {clinicName}. Sua última consulta foi em {lastVisit}. Podemos agendar sua revisão?"
      waitlist_call :=
        "Olá, {patientName}. Abriu um encaixe para {procedure} na {clinicName}. Temos horário em breve. Quer confirmar?" }
  sms :=
    { reminder :=
        "{patientName}, lembrete: consulta {date} {time} na {clinicName}. Responda SIM para confirmar."
      reactivation :=
        "{patientName}, está na hora da revisão odontológica. Última visita: {lastVisit}. Fale com a {clinicName}."
      waitlist_call :=
        "{patientName}, surgiu encaixe para {procedure}. Deseja confirmar com a {clinicName}?" }
  email :=
    { reminder :=
        "Prezado(a) {patientName}, confirmamos seu atendimento em {date} às {time} com {professional}, procedimento: {procedure}."
      reactivation :=
        "Olá, {patientName}. Notamos que sua última visita foi em {lastVisit}. Recomendamos retorno preventivo na {clinicName}."
      waitlist_call :=
        "Olá, {patientName}. Temos encaixe para {procedure}. Caso tenha interesse, confirme seu horário com a {clinicName}." }

/-- Embedding of `mergeTemplates` from `RetentionCenter.tsx`: an absent payload yields the
defaults unchanged; otherwise every one of the nine `(channel, type)`
fields is `incoming[ch]?.[ty] || defaultTemplates[ch][ty]`. -/
def mergeTemplates (incoming : Option IncomingMap) : TemplateMap :=
  match incoming with
  | none => defaultTemplates
  | some inc =>
    { whatsapp :=
        { reminder :=
            jsOrDefault (inc.whatsapp.bind IncomingSet.reminder)
              defaultTemplates.whatsapp.reminder
          reactivation :=
            jsOrDefault (inc.whatsapp.bind IncomingSet.reactivation)
              defaultTemplates.whatsapp.reactivation
          waitlist_call :=
            jsOrDefault (inc.whatsapp.bind IncomingSet.waitlist_call)
              defaultTemplates.whatsapp.waitlist_call }
      sms :=
        { reminder :=
            jsOrDefault (inc.sms.bind IncomingSet.reminder)
              defaultTemplates.sms.reminder
          reactivation :=
            jsOrDefault (inc.sms.bind IncomingSet.reactivation)
              defaultTemplates.sms.reactivation
          waitlist_call :=
            jsOrDefault (inc.sms.bind IncomingSet.waitlist_call)
              defaultTemplates.sms.waitlist_call }
      email :=
        { reminder :=
            jsOrDefault (inc.email.bind IncomingSet.reminder)
              defaultTemplates.email.reminder
          reactivation :=
            jsOrDefault (inc.email.bind IncomingSet.reactivation)
              defaultTemplates.email.reactivation
          waitlist_call :=
            jsOrDefault (inc.email.bind IncomingSet.waitlist_call)
              defaultTemplates.email.waitlist_call } }

/-! ## Basic facts about the token matcher -/

theorem isWordChar_lbrace : isWordChar lbrace = false := by decide

theorem isWordChar_rbrace : isWordChar rbrace = false := by decide

theorem lbrace_ne_rbrace : lbrace ≠ rbrace := by decide

theorem takeWhile_append_neg {p : Char → Bool} {d : Char} (hd : p d = false) :
    ∀ (l z : List Char), (l ++ d :: z).takeWhile p = l.takeWhile p := by
  intro l z
  induction l with
  | nil => simp [List.takeWhile_cons, hd]
  | cons a l ih =>
    by_cases h : p a
    · simp [List.takeWhile_cons, h, ih]
    · simp [List.takeWhile_cons, h]

theorem dropWhile_append_neg {p : Char → Bool} {d : Char} (hd : p d = false) :
    ∀ (l z : List Char), (l ++ d :: z).dropWhile p = l.dropWhile p ++ d :: z := by
  intro l z
  induction l with
  | nil => simp [List.dropWhile_cons, hd]
  | cons a l ih =>
    by_cases h : p a
    · simp [List.dropWhile_cons, h, ih]
    · simp [List.dropWhile_cons, h]

/-- The regex succeeds on a literal well-formed token at the head of the
input: the captured name is exactly the token name and the remaining input
is exactly what follows the close brace. -/
theorem matchToken_eval (x t : List Char) (hx : x ≠ [])
    (hw : ∀ a ∈ x, isWordChar a = true) :
    matchToken (lbrace :: (x ++ rbrace :: t)) = some (x, t) := by
  have hx0 : x.takeWhile isWordChar = x := List.takeWhile_eq_self_iff.mpr hw
  have htw : (x ++ rbrace :: t).takeWhile isWordChar = x := by
    rw [takeWhile_append_neg isWordChar_rbrace]; exact hx0
  have hxd : x.dropWhile isWordChar = [] := by
    have h2 := List.takeWhile_append_dropWhile (p := isWordChar) (l := x)
    rw [hx0] at h2
    have hlen := congrArg List.length h2
    simp only [List.length_append] at hlen
    exact List.eq_nil_of_length_eq_zero (by omega)
  have hdw : (x ++ rbrace :: t).dropWhile isWordChar = rbrace :: t := by
    rw [dropWhile_append_neg isWordChar_rbrace, hxd]; rfl
  simp [matchToken, hdw, htw, hx]

/-- Inversion of a successful match: the head is an open brace and the
input decomposes as the matched token followed by the rest. -/
theorem matchToken_some_inv {c : Char} {cs n t : List Char}
    (h : matchToken (c :: cs) = some (n, t)) :
    c = lbrace ∧ cs = n ++ rbrace :: t ∧ n ≠ [] ∧ ∀ a ∈ n, isWordChar a = true := by
  simp only [matchToken] at h
  split at h
  · rename_i hc
    split at h
    · rename_i d tail hdw
      split at h
      · rename_i hd
        split at h
        · exact absurd h (by simp)
        · rename_i he
          rw [Option.some.injEq, Prod.mk.injEq] at h
          obtain ⟨hn, ht⟩ := h
          subst hd hc ht
          refine ⟨rfl, ?_, ?_, ?_⟩
          · rw [← hn]
            conv_lhs => rw [← List.takeWhile_append_dropWhile (p := isWordChar) (l := cs)]
            rw [hdw]
          · intro h0
            apply he
            rw [hn, h0]
            rfl
          · intro a ha
            rw [← hn] at ha
            exact List.mem_takeWhile_imp ha
      · exact absurd h (by simp)
    · exact absurd h (by simp)
  · exact absurd h (by simp)

/-- A successful match consumes the open brace, at least one name
character and the close brace: the remainder is shorter by at least two
than the tail of the input. -/
theorem matchToken_some_length {c : Char} {cs n t : List Char}
    (h : matchToken (c :: cs) = some (n, t)) : t.length + 2 ≤ cs.length := by
  obtain ⟨-, hcs, hn, -⟩ := matchToken_some_inv h
  have : n.length ≠ 0 := fun h0 => hn (List.eq_nil_of_length_eq_zero h0)
  rw [hcs]
  simp only [List.length_append, List.length_cons]
  omega

/-- Failure of the regex at any position that is not an open brace. -/
theorem matchToken_none_of_head {c : Char} (cs : List Char) (hc : c ≠ lbrace) :
    matchToken (c :: cs) = none := by
  simp [matchToken, hc]

/-! ## Fuel irrelevance and step equations for the scanner -/

theorem applyAux_nil (fuel : Nat) (vars : List (String × String)) :
    applyAux fuel vars [] = [] := by
  cases fuel <;> rfl

/-- Any fuel at least the length of the remaining input gives the same
scan result: the fuel argument is only a termination device. -/
theorem applyAux_congr :
    ∀ (f1 : Nat) (s : List Char) (f2 : Nat) (vars : List (String × String)),
      s.length ≤ f1 → s.length ≤ f2 → applyAux f1 vars s = applyAux f2 vars s := by
  intro f1
  induction f1 with
  | zero =>
    intro s f2 vars h1 _
    have : s = [] := List.eq_nil_of_length_eq_zero (by omega)
    subst this
    rw [applyAux_nil, applyAux_nil]
  | succ f ih =>
    intro s f2 vars h1 h2
    cases s with
    | nil => rw [applyAux_nil, applyAux_nil]
    | cons c cs =>
      cases f2 with
      | zero => simp at h2
      | succ f2' =>
        rcases hm : matchToken (c :: cs) with _ | ⟨n, t⟩
        · simp only [applyAux, hm]
          rw [ih cs f2' vars (by simp at h1; omega) (by simp at h2; omega)]
        · have hlen := matchToken_some_length hm
          simp only [applyAux, hm]
          rw [ih t f2' vars (by simp at h1; omega) (by simp at h2; omega)]

theorem resolveList_nil (vars : List (String × String)) : resolveList vars [] = [] := rfl

/-- Step equation of the scan at a matching position: the matched span is
replaced by the looked-up value and scanning resumes after the span (never
inside the inserted value). -/
theorem resolveList_match {c : Char} {cs n t : List Char}
    (vars : List (String × String)) (hm : matchToken (c :: cs) = some (n, t)) :
    resolveList vars (c :: cs) =
      (jsOrEmpty (lookupVar vars (String.mk n))).data ++ resolveList vars t := by
  have hlen := matchToken_some_length hm
  show applyAux (cs.length + 1) vars (c :: cs) = _
  simp only [applyAux, hm]
  rw [applyAux_congr cs.length t t.length vars (by omega) (by omega)]
  rfl

/-- Step equation of the scan at a non-matching position: the current
character is emitted and the scan moves one position right. -/
theorem resolveList_nomatch {c : Char} {cs : List Char}
    (vars : List (String × String)) (hm : matchToken (c :: cs) = none) :
    resolveList vars (c :: cs) = c :: resolveList vars cs := by
  show applyAux (cs.length + 1) vars (c :: cs) = _
  simp only [applyAux, hm]
  rfl

/-! ## No match crosses an open-brace boundary -/

/-- Appending `lbrace :: z` after a non-empty input does not change
whether the regex matches at the head, and a match is unchanged except
that the appended part rides along on the remainder: no match can extend
across a later open brace. -/
theorem matchToken_append_brace (c : Char) (cs z : List Char) :
    matchToken (c :: cs ++ lbrace :: z) =
      Option.map (fun nt => (nt.1, nt.2 ++ lbrace :: z)) (matchToken (c :: cs)) := by
  by_cases hc : c = lbrace
  · subst hc
    have htw : (cs ++ lbrace :: z).takeWhile isWordChar = cs.takeWhile isWordChar :=
      takeWhile_append_neg isWordChar_lbrace cs z
    have hdw : (cs ++ lbrace :: z).dropWhile isWordChar =
        cs.dropWhile isWordChar ++ lbrace :: z :=
      dropWhile_append_neg isWordChar_lbrace cs z
    rcases hcs : cs.dropWhile isWordChar with _ | ⟨d, tail⟩
    · rw [hcs] at hdw
      simp only [List.nil_append] at hdw
      simp [matchToken, hdw, hcs, lbrace_ne_rbrace]
    · rw [hcs] at hdw
      simp only [List.cons_append] at hdw
      by_cases hd : d = rbrace
      · by_cases he : (cs.takeWhile isWordChar).isEmpty
        · simp [matchToken, hdw, hcs, htw, hd, he]
        · simp [matchToken, hdw, hcs, htw, hd, he]
      · simp [matchToken, hdw, hcs, hd]
  · rw [matchToken_none_of_head _ hc]
    have : (c :: cs ++ lbrace :: z) = c :: (cs ++ lbrace :: z) := rfl
    rw [this, matchToken_none_of_head _ hc]
    rfl

/-- The scan distributes over a split placed just before an open brace:
everything to the left of an open brace is resolved independently of what
follows it. -/
theorem resolveList_append_brace (vars : List (String × String)) :
    ∀ (fuel : Nat) (pre z : List Char), pre.length ≤ fuel →
      resolveList vars (pre ++ lbrace :: z) =
        resolveList vars pre ++ resolveList vars (lbrace :: z) := by
  intro fuel
  induction fuel with
  | zero =>
    intro pre z h
    have : pre = [] := List.eq_nil_of_length_eq_zero (by omega)
    subst this
    simp [resolveList_nil]
  | succ f ih =>
    intro pre z h
    cases pre with
    | nil => simp [resolveList_nil]
    | cons c cs =>
      rcases hm : matchToken (c :: cs) with _ | ⟨n, t⟩
      · have hm2 : matchToken (c :: cs ++ lbrace :: z) = none := by
          rw [matchToken_append_brace, hm]; rfl
        have step1 : resolveList vars (c :: (cs ++ lbrace :: z)) =
            c :: resolveList vars (cs ++ lbrace :: z) := resolveList_nomatch vars hm2
        have step2 := resolveList_nomatch vars hm
        have hrec := ih cs z (by simp at h; omega)
        simp only [List.cons_append] at *
        rw [step1, hrec, step2]
        rfl
      · have hm2 : matchToken (c :: cs ++ lbrace :: z) = some (n, t ++ lbrace :: z) := by
          rw [matchToken_append_brace, hm]; rfl
        have hlen := matchToken_some_length hm
        have step1 : resolveList vars (c :: (cs ++ lbrace :: z)) =
            (jsOrEmpty (lookupVar vars (String.mk n))).data ++
              resolveList vars (t ++ lbrace :: z) := by
          have := @resolveList_match c (cs ++ lbrace :: z) n (t ++ lbrace :: z) vars hm2
          simpa using this
        have step2 := resolveList_match vars hm
        have hrec := ih t z (by simp at h; omega)
        simp only [List.cons_append] at *
        rw [step1, hrec, step2, List.append_assoc]

/-! ## The token-substitution equation and passthrough lemmas -/

/-- Main substitution equation, on character lists: a well-formed token
occurrence anywhere in the template is replaced by the context value of
its name (the empty string when the name is absent), the parts before and
after the occurrence being resolved independently. -/
theorem resolveList_token (vars : List (String × String)) (pre x post : List Char)
    (hx : x ≠ []) (hw : ∀ a ∈ x, isWordChar a = true) :
    resolveList vars (pre ++ lbrace :: (x ++ rbrace :: post)) =
      resolveList vars pre ++
        (jsOrEmpty (lookupVar vars (String.mk x))).data ++ resolveList vars post := by
  rw [resolveList_append_brace vars pre.length pre _ (le_refl _)]
  rw [resolveList_match vars (matchToken_eval x post hx hw)]
  rw [List.append_assoc]

/-- Characters other than an open brace are emitted unchanged: the scan
passes over any open-brace-free prefix literally. -/
theorem resolveList_no_lbrace (vars : List (String × String)) :
    ∀ (l s : List Char), (∀ c ∈ l, c ≠ lbrace) →
      resolveList vars (l ++ s) = l ++ resolveList vars s := by
  intro l
  induction l with
  | nil => intro s _; rfl
  | cons c l ih =>
    intro s hl
    have hc : c ≠ lbrace := hl c (by simp)
    have : resolveList vars (c :: (l ++ s)) = c :: resolveList vars (l ++ s) :=
      resolveList_nomatch vars (matchToken_none_of_head _ hc)
    simp only [List.cons_append]
    rw [this, ih s (fun a ha => hl a (by simp [ha]))]

/-- A template with no token-like substring is returned unchanged. -/
theorem resolveList_id_of_no_token (vars : List (String × String)) :
    ∀ (s : List Char), hasToken s = false → resolveList vars s = s := by
  intro s
  induction s with
  | nil => intro _; rfl
  | cons c cs ih =>
    intro h
    simp only [hasToken, Bool.or_eq_false_iff] at h
    have hm : matchToken (c :: cs) = none := by
      rcases hmm : matchToken (c :: cs) with _ | nt
      · rfl
      · rw [hmm] at h; simp at h
    rw [resolveList_nomatch vars hm, ih h.2]

/-! ## String-level glue -/

theorem string_data_append (a b : String) : (a ++ b).data = a.data ++ b.data := rfl

theorem string_mk_data (s : String) : String.mk s.data = s := rfl

theorem string_eq_of_data {a b : String} (h : a.data = b.data) : a = b := by
  cases a; cases b; exact congrArg String.mk h

theorem braced_data (x : String) : (braced x).data = lbrace :: (x.data ++ [rbrace]) := rfl

theorem applyVariables_data (t : String) (vars : List (String × String)) :
    (applyVariables t vars).data = resolveList vars t.data := rfl

/-- Main substitution equation at the `String` level: for any occurrence of
a well-formed token `{x}` in a template, the output is the resolution of
the part before the occurrence, then `variables[x] || ""`, then the
resolution of the part after it. -/
theorem applyVariables_token (vars : List (String × String)) (pre x post : String)
    (hx : x.data ≠ []) (hw : ∀ a ∈ x.data, isWordChar a = true) :
    applyVariables (pre ++ braced x ++ post) vars =
      applyVariables pre vars ++ jsOrEmpty (lookupVar vars x) ++ applyVariables post vars := by
  apply string_eq_of_data
  show resolveList vars (pre ++ braced x ++ post).data = _
  have hdata : (pre ++ braced x ++ post).data =
      pre.data ++ lbrace :: (x.data ++ rbrace :: post.data) := by
    rw [string_data_append, string_data_append, braced_data]
    simp
  rw [hdata, resolveList_token vars pre.data x.data post.data hx hw]
  rw [string_data_append, string_data_append]
  rw [applyVariables_data, applyVariables_data, string_mk_data]

/-! ## All braces inside matched tokens: brace-free output -/

/-- Inversion of the inside-token mode of `nsScan`: a successful scan that
starts inside a token first reads the rest of that token (word characters
then a close brace) and then continues outside. -/
theorem nsScan_some_inv :
    ∀ (l : List Char) (seen : Bool), nsScan (some seen) l = true →
      ∃ x t, l = x ++ rbrace :: t ∧ (∀ a ∈ x, isWordChar a = true) ∧
        (seen = true ∨ x ≠ []) ∧ nsScan none t = true := by
  intro l
  induction l with
  | nil => intro seen h; simp [nsScan] at h
  | cons c cs ih =>
    intro seen h
    by_cases hw : isWordChar c
    · simp only [nsScan, hw, if_pos] at h
      obtain ⟨x, t, hcs, hxw, -, ht⟩ := ih true h
      refine ⟨c :: x, t, by rw [hcs]; rfl, ?_, Or.inr (by simp), ht⟩
      intro a ha
      rcases List.mem_cons.mp ha with rfl | ha
      · exact hw
      · exact hxw a ha
    · by_cases hc : c = rbrace
      · subst hc
        have h' : seen = true ∧ nsScan none cs = true := by
          have hr : isWordChar rbrace = false := isWordChar_rbrace
          simpa [nsScan, hr, Bool.and_eq_true] using h
        exact ⟨[], cs, rfl, by simp, Or.inl h'.1, h'.2⟩
      · simp [nsScan, hw, hc] at h

/-- A context that passes `ctxBraceFree` only yields brace-free values. -/
theorem lookupVar_braceFree :
    ∀ (vars : List (String × String)), ctxBraceFree vars = true →
      ∀ (k v : String), lookupVar vars k = some v →
        ∀ c ∈ v.data, c ≠ lbrace ∧ c ≠ rbrace := by
  intro vars
  induction vars with
  | nil => intro _ k v h; simp [lookupVar] at h
  | cons p rest ih =>
    intro hall k v h
    simp only [ctxTokenFree, ctxBraceFree, List.all_cons, Bool.and_eq_true] at hall
    simp only [lookupVar] at h
    by_cases hk : p.1 = k
    · rw [if_pos hk] at h
      obtain rfl : p.2 = v := Option.some.inj h
      intro c hc
      have := List.all_eq_true.mp hall.1 c hc
      simp only [Bool.not_eq_eq_eq_not, Bool.not_true, Bool.or_eq_false_iff] at this
      exact ⟨by simpa using this.1, by simpa using this.2⟩
    · rw [if_neg hk] at h
      exact ih hall.2 k v h

/-- When every brace of the template belongs to a matched token and the
context values are brace-free, the output of the scan contains no brace
character at all. -/
theorem resolveList_braceFree (vars : List (String × String))
    (hv : ctxBraceFree vars = true) :
    ∀ (fuel : Nat) (s : List Char), s.length ≤ fuel → nsScan none s = true →
      ∀ c ∈ resolveList vars s, c ≠ lbrace ∧ c ≠ rbrace := by
  intro fuel
  induction fuel with
  | zero =>
    intro s hlen _
    have : s = [] := List.eq_nil_of_length_eq_zero (by omega)
    subst this
    simp [resolveList_nil]
  | succ f ih =>
    intro s hlen hns
    cases s with
    | nil => simp [resolveList_nil]
    | cons c cs =>
      by_cases hc : c = lbrace
      · subst hc
        have hin : nsScan (some false) cs = true := by
          simpa [nsScan, isWordChar_lbrace, lbrace_ne_rbrace] using hns
        obtain ⟨x, t, hcs, hxw, hxne, ht⟩ := nsScan_some_inv cs false hin
        have hxne' : x ≠ [] := by
          rcases hxne with h0 | h0
          · exact absurd h0 (by simp)
          · exact h0
        subst hcs
        have hm : matchToken (lbrace :: (x ++ rbrace :: t)) = some (x, t) :=
          matchToken_eval x t hxne' hxw
        rw [resolveList_match vars hm]
        intro a ha
        rcases List.mem_append.mp ha with ha | ha
        · rcases hlk : lookupVar vars (String.mk x) with _ | v
          · rw [hlk] at ha; simp [jsOrEmpty] at ha
          · rw [hlk] at ha
            simp only [jsOrEmpty] at ha
            by_cases hv0 : v = ""
            · rw [if_pos hv0] at ha; simp at ha
            · rw [if_neg hv0] at ha
              exact lookupVar_braceFree vars hv (String.mk x) v hlk a ha
        · have hxlen : 1 ≤ x.length := by
            rcases x with _ | ⟨b, xs⟩
            · exact absurd rfl hxne'
            · simp
          have hlt : t.length ≤ f := by
            simp only [List.length_cons, List.length_append] at hlen
            omega
          exact ih t hlt ht a ha
      · have hns' : nsScan none cs = true ∧ c ≠ rbrace := by
          by_cases hr : c = rbrace
          · subst hr; simp [nsScan, lbrace_ne_rbrace] at hns
            exact absurd hns (by simp [Ne.symm lbrace_ne_rbrace])
          · constructor
            · simpa [nsScan, hc, hr] using hns
            · exact hr
        rw [resolveList_nomatch vars (matchToken_none_of_head _ hc)]
        intro a ha
        rcases List.mem_cons.mp ha with rfl | ha
        · exact ⟨hc, hns'.2⟩
        · exact ih cs (by simp at hlen; omega) hns'.1 a ha

/-- A string without open braces has no token-like substring. -/
theorem hasToken_eq_false_of_no_lbrace :
    ∀ (s : List Char), (∀ c ∈ s, c ≠ lbrace) → hasToken s = false := by
  intro s
  induction s with
  | nil => intro _; rfl
  | cons c cs ih =>
    intro h
    have hc : c ≠ lbrace := h c (by simp)
    simp only [hasToken, Bool.or_eq_false_iff]
    constructor
    · rw [matchToken_none_of_head _ hc]; rfl
    · exact ih (fun a ha => h a (by simp [ha]))

/-! ## Small helpers -/

theorem jsOrEmpty_some (v : String) : jsOrEmpty (some v) = v := by
  by_cases h : v = ""
  · subst h; rfl
  · simp [jsOrEmpty, h]

theorem dropWhile_first_not {p : Char → Bool} :
    ∀ (l : List Char), (∃ c ∈ l, p c = false) →
      ∃ d r, l.dropWhile p = d :: r ∧ p d = false ∧ d ∈ l := by
  intro l
  induction l with
  | nil => intro h; simp at h
  | cons a l ih =>
    intro h
    by_cases ha : p a
    · have : ∃ c ∈ l, p c = false := by
        obtain ⟨c, hc, hcp⟩ := h
        rcases List.mem_cons.mp hc with rfl | hc
        · rw [ha] at hcp; simp at hcp
        · exact ⟨c, hc, hcp⟩
      obtain ⟨d, r, hd, hdp, hdm⟩ := ih this
      exact ⟨d, r, by simp [List.dropWhile_cons, ha, hd], hdp, by simp [hdm]⟩
    · exact ⟨a, l, by simp [List.dropWhile_cons, ha], by simpa using ha, by simp⟩

/-- The regex fails on a brace-delimited span whose contents contain no
brace but do contain a character outside the word class: the name run
stops at that character, which is not the required close brace. -/
theorem matchToken_none_malformed (x t : List Char)
    (hb : ∀ c ∈ x, c ≠ lbrace ∧ c ≠ rbrace)
    (hnw : ∃ c ∈ x, isWordChar c = false) :
    matchToken (lbrace :: (x ++ rbrace :: t)) = none := by
  obtain ⟨d, r, hd, hdp, hdm⟩ := dropWhile_first_not x hnw
  have hdw : (x ++ rbrace :: t).dropWhile isWordChar = d :: (r ++ rbrace :: t) := by
    rw [dropWhile_append_neg isWordChar_rbrace, hd]
    rfl
  have hdr : d ≠ rbrace := (hb d hdm).2
  simp [matchToken, hdw, hdr]

theorem jsOrDefault_none (d : String) : jsOrDefault none d = d := rfl

theorem jsOrDefault_some_ne (s d : String) (h : s ≠ "") : jsOrDefault (some s) d = s := by
  simp [jsOrDefault, h]

theorem jsOrDefault_some_empty (d : String) : jsOrDefault (some "") d = d := by
  simp [jsOrDefault]

theorem jsOrDefault_ne_empty (x : Option String) (d : String) (hd : d ≠ "") :
    jsOrDefault x d ≠ "" := by
  rcases x with _ | s
  · exact hd
  · by_cases h : s = ""
    · subst h; simpa [jsOrDefault] using hd
    · rw [jsOrDefault_some_ne s d h]; exact h

/-- Every hardcoded default template is a non-empty string. -/
theorem defaultTemplates_ne_empty (ch : ReminderChannel) (ty : TemplateType) :
    defaultTemplates.get ch ty ≠ "" := by
  cases ch <;> cases ty <;> decide

/-- The merged working set, pair by pair: each `(channel, type)` entry of
the merge of a present payload is the payload entry `|| default`. -/
theorem mergeTemplates_get (inc : IncomingMap) (ch : ReminderChannel) (ty : TemplateType) :
    (mergeTemplates (some inc)).get ch ty =
      jsOrDefault (inc.get ch ty) (defaultTemplates.get ch ty) := by
  cases ch <;> cases ty <;> rfl

/-! ## The claims -/

/-- C1: full coverage.  For every template decomposed around an occurrence
of a well-formed token whose name has a matching key in the context, the
output is the resolution of the part before, then the bound value
verbatim at the former token's position, then the resolution of the part
after — in particular the resolved token leaves no literal span behind.
And the spec's concrete scenario resolves as stated. -/
theorem c1_full_coverage :
    (∀ (pre post x v : String) (vars : List (String × String)),
        x.data ≠ [] → (∀ a ∈ x.data, isWordChar a = true) →
        lookupVar vars x = some v →
        applyVariables (pre ++ braced x ++ post) vars =
          applyVariables pre vars ++ v ++ applyVariables post vars) ∧
      applyVariables "Olá, {patientName}. Consulta em {date} às {time}."
          [("patientName", "Ana"), ("date", "10/05/2024"), ("time", "14:00")] =
        "Olá, Ana. Consulta em 10/05/2024 às 14:00." := by
  constructor
  · intro pre post x v vars hx hw hlk
    rw [applyVariables_token vars pre x post hx hw, hlk, jsOrEmpty_some]
  · decide

/-- Witness for C1 at a concrete input. -/
theorem c1_full_coverage_witness :
    applyVariables ("Oi " ++ braced "nome" ++ "!") [("nome", "Ana")] =
      applyVariables "Oi " [("nome", "Ana")] ++ "Ana" ++ applyVariables "!" [("nome", "Ana")] :=
  c1_full_coverage.1 "Oi " "!" "nome" "Ana" [("nome", "Ana")]
    (by decide) (by decide) (by decide)

/-- C2: the resolver is a total function into strings (it cannot throw),
and a well-formed token whose name is absent from the context has its
whole braces-and-name span replaced by the empty string: the output is
just the resolution of the surrounding parts. -/
theorem c2_missing_token :
    (∀ (T : String) (vars : List (String × String)), ∃ r : String, applyVariables T vars = r) ∧
      ∀ (pre post x : String) (vars : List (String × String)),
        x.data ≠ [] → (∀ a ∈ x.data, isWordChar a = true) →
        lookupVar vars x = none →
        applyVariables (pre ++ braced x ++ post) vars =
          applyVariables pre vars ++ applyVariables post vars := by
  constructor
  · intro T vars; exact ⟨applyVariables T vars, rfl⟩
  · intro pre post x vars hx hw hlk
    rw [applyVariables_token vars pre x post hx hw, hlk]
    apply string_eq_of_data
    simp [string_data_append, jsOrEmpty]

/-- Witness for C2 at the spec's missing-token scenario. -/
theorem c2_missing_token_witness :
    applyVariables ("Oi \x7bpatientName\x7d, encaixe para " ++ braced "procedure" ++ ".")
        [("patientName", "Bruno")] =
      applyVariables "Oi \x7bpatientName\x7d, encaixe para " [("patientName", "Bruno")] ++
        applyVariables "." [("patientName", "Bruno")] :=
  c2_missing_token.2 "Oi \x7bpatientName\x7d, encaixe para " "." "procedure"
    [("patientName", "Bruno")] (by decide) (by decide) (by decide)

/-- C4: single pass, no recursive substitution: a token resolves to its
bound value inserted verbatim, even when that value itself has the shape
of a token — and in particular the spec's example. -/
theorem c4_no_rescan :
    (∀ (x v : String) (vars : List (String × String)),
        x.data ≠ [] → (∀ a ∈ x.data, isWordChar a = true) →
        lookupVar vars x = some v →
        applyVariables (braced x) vars = v) ∧
      applyVariables "{a}" [("a", "{b}"), ("b", "X")] = "{b}" := by
  constructor
  · intro x v vars hx hw hlk
    apply string_eq_of_data
    rw [applyVariables_data, braced_data]
    have hshape : lbrace :: (x.data ++ [rbrace]) =
        ([] : List Char) ++ lbrace :: (x.data ++ rbrace :: []) := rfl
    rw [hshape, resolveList_token vars [] x.data [] hx hw, hlk]
    simp [resolveList_nil, string_mk_data, jsOrEmpty_some]
  · decide

/-- Witness for C4: the inserted value is token-shaped and is not
substituted again. -/
theorem c4_no_rescan_witness :
    applyVariables (braced "a") [("a", "{b}"), ("b", "X")] = "{b}" :=
  c4_no_rescan.1 "a" "{b}" [("a", "{b}"), ("b", "X")] (by decide) (by decide) (by decide)

/-- C6: literal passthrough: a template with no token-like substring is
returned unchanged, whatever the context. -/
theorem c6_literal_passthrough (T : String) (vars : List (String × String))
    (h : hasToken T.data = false) : applyVariables T vars = T := by
  apply string_eq_of_data
  rw [applyVariables_data, resolveList_id_of_no_token vars T.data h]

/-- Witness for C6, including the empty template. -/
theorem c6_literal_passthrough_witness :
    hasToken ("Sem variáveis aqui." : String).data = false ∧
      applyVariables "Sem variáveis aqui." [("patientName", "Ana")] = "Sem variáveis aqui." ∧
      applyVariables "" [("patientName", "Ana")] = "" :=
  ⟨by decide,
    c6_literal_passthrough "Sem variáveis aqui." [("patientName", "Ana")] (by decide),
    c6_literal_passthrough "" [("patientName", "Ana")] (by decide)⟩

/-- C5: multiplicity and adjacency: a token occurring twice is replaced at
both occurrences in the one pass, and two adjacent tokens with no
separator are resolved independently. -/
theorem c5_multiplicity :
    (∀ (s1 s2 s3 x v : String) (vars : List (String × String)),
        x.data ≠ [] → (∀ a ∈ x.data, isWordChar a = true) →
        lookupVar vars x = some v →
        applyVariables (s1 ++ braced x ++ s2 ++ braced x ++ s3) vars =
          applyVariables s1 vars ++ v ++ applyVariables s2 vars ++ v ++
            applyVariables s3 vars) ∧
      ∀ (x y vx vy : String) (vars : List (String × String)),
        x.data ≠ [] → (∀ a ∈ x.data, isWordChar a = true) →
        y.data ≠ [] → (∀ a ∈ y.data, isWordChar a = true) →
        lookupVar vars x = some vx → lookupVar vars y = some vy →
        applyVariables (braced x ++ braced y) vars = vx ++ vy := by
  constructor
  · intro s1 s2 s3 x v vars hx hw hlk
    apply string_eq_of_data
    have hdata : (s1 ++ braced x ++ s2 ++ braced x ++ s3).data =
        s1.data ++ lbrace ::
          (x.data ++ rbrace :: (s2.data ++ lbrace :: (x.data ++ rbrace :: s3.data))) := by
      simp [string_data_append, braced_data]
    rw [applyVariables_data, hdata, resolveList_token vars s1.data x.data _ hx hw,
      resolveList_token vars s2.data x.data s3.data hx hw, hlk, jsOrEmpty_some]
    simp [string_data_append, applyVariables_data, string_mk_data]
  · intro x y vx vy vars hx hwx hy hwy hlkx hlky
    apply string_eq_of_data
    have hdata : (braced x ++ braced y).data =
        ([] : List Char) ++ lbrace ::
          (x.data ++ rbrace :: (([] : List Char) ++ lbrace :: (y.data ++ rbrace :: []))) := by
      simp [string_data_append, braced_data]
    rw [applyVariables_data, hdata, resolveList_token vars [] x.data _ hx hwx,
      resolveList_token vars [] y.data [] hy hwy, hlkx, hlky, jsOrEmpty_some, jsOrEmpty_some]
    simp [string_data_append, resolveList_nil, string_mk_data]

/-- Witness for C5: the same token twice, then two adjacent tokens. -/
theorem c5_multiplicity_witness :
    applyVariables ("" ++ braced "a" ++ " e " ++ braced "a" ++ "") [("a", "A"), ("b", "B")] =
        applyVariables "" [("a", "A"), ("b", "B")] ++ "A" ++
          applyVariables " e " [("a", "A"), ("b", "B")] ++ "A" ++
          applyVariables "" [("a", "A"), ("b", "B")] ∧
      applyVariables (braced "a" ++ braced "b") [("a", "A"), ("b", "B")] = "A" ++ "B" :=
  ⟨c5_multiplicity.1 "" " e " "" "a" "A" [("a", "A"), ("b", "B")]
      (by decide) (by decide) (by decide),
    c5_multiplicity.2 "a" "b" "A" "B" [("a", "A"), ("b", "B")]
      (by decide) (by decide) (by decide) (by decide) (by decide) (by decide)⟩

/-- C7: a brace-delimited span (its contents contain no brace, so the two
braces really delimit it) whose contents contain a character outside
`[A-Za-z0-9_]` is not matched as a token: the braces and contents pass
through to the output as literal text, whatever the context. -/
theorem c7_malformed_passthrough (pre post x : String) (vars : List (String × String))
    (hb : ∀ c ∈ x.data, c ≠ lbrace ∧ c ≠ rbrace)
    (hnw : ∃ c ∈ x.data, isWordChar c = false) :
    applyVariables (pre ++ braced x ++ post) vars =
      applyVariables pre vars ++ braced x ++ applyVariables post vars := by
  apply string_eq_of_data
  have hdata : (pre ++ braced x ++ post).data =
      pre.data ++ lbrace :: (x.data ++ rbrace :: post.data) := by
    simp [string_data_append, braced_data]
  rw [applyVariables_data, hdata,
    resolveList_append_brace vars pre.data.length pre.data _ (le_refl _)]
  have hmid : resolveList vars (lbrace :: (x.data ++ rbrace :: post.data)) =
      lbrace :: (x.data ++ rbrace :: resolveList vars post.data) := by
    rw [resolveList_nomatch vars (matchToken_none_malformed x.data post.data hb hnw)]
    rw [resolveList_no_lbrace vars x.data (rbrace :: post.data) (fun c hc => (hb c hc).1)]
    rw [resolveList_nomatch vars (matchToken_none_of_head _ (Ne.symm lbrace_ne_rbrace))]
  rw [hmid]
  simp [string_data_append, applyVariables_data, braced_data]

/-- Witness for C7 at the spec's hyphen example. -/
theorem c7_malformed_passthrough_witness :
    applyVariables ("Olá " ++ braced "pa-tient" ++ "!") [("pa", "1"), ("tient", "2")] =
      applyVariables "Olá " [("pa", "1"), ("tient", "2")] ++ braced "pa-tient" ++
        applyVariables "!" [("pa", "1"), ("tient", "2")] :=
  c7_malformed_passthrough "Olá " "!" "pa-tient" [("pa", "1"), ("tient", "2")]
    (by decide) (by decide)

/-- C3 as stated is false: with the template `"{{x}c}"` and the context
`{x: "ab"}` — whose single value `"ab"` contains no token-like substring —
the first resolution glues the stray braces of the template to the
inserted value, producing `"{abc}"`, which the second resolution then
destroys (name `abc` is absent, so it resolves to `""`). -/
theorem c3_idempotence_counterexample :
    ctxTokenFree [("x", "ab")] = true ∧
      applyVariables "\x7b{x}c\x7d" [("x", "ab")] = "\x7babc\x7d" ∧
      applyVariables (applyVariables "\x7b{x}c\x7d" [("x", "ab")]) [("x", "ab")] ≠
        applyVariables "\x7b{x}c\x7d" [("x", "ab")] := by
  refine ⟨by decide, by decide, by decide⟩

/-- C3 amended: resolve is idempotent under a stable context provided the
template has no stray braces (every brace character belongs to a matched
token) and no context value contains a brace character — under the
original, weaker hypothesis (values merely free of full token-like
substrings) idempotence fails, see the counterexample. -/
theorem c3_idempotent_amended (T : String) (vars : List (String × String))
    (hT : noStrayBraces T.data = true) (hv : ctxBraceFree vars = true) :
    applyVariables (applyVariables T vars) vars = applyVariables T vars := by
  apply string_eq_of_data
  rw [applyVariables_data, applyVariables_data]
  have hbf : ∀ c ∈ resolveList vars T.data, c ≠ lbrace ∧ c ≠ rbrace :=
    resolveList_braceFree vars hv T.data.length T.data (le_refl _) hT
  have hnt : hasToken (resolveList vars T.data) = false :=
    hasToken_eq_false_of_no_lbrace _ (fun c hc => (hbf c hc).1)
  exact resolveList_id_of_no_token vars _ hnt

/-- Witness for the amended C3. -/
theorem c3_idempotent_amended_witness :
    noStrayBraces ("Olá {patientName}!" : String).data = true ∧
      ctxBraceFree [("patientName", "Ana")] = true ∧
      applyVariables (applyVariables "Olá {patientName}!" [("patientName", "Ana")])
          [("patientName", "Ana")] =
        applyVariables "Olá {patientName}!" [("patientName", "Ana")] :=
  ⟨by decide, by decide,
    c3_idempotent_amended "Olá {patientName}!" [("patientName", "Ana")]
      (by decide) (by decide)⟩

/-- C8 as stated is false on one edge: a pair that is present in the
payload but bound to the empty string is not taken from the payload — the
JavaScript `||` fallback replaces it by the hardcoded default. -/
theorem c8_merge_counterexample :
    (⟨some ⟨some "", none, none⟩, none, none⟩ : IncomingMap).get
        ReminderChannel.whatsapp TemplateType.reminder = some "" ∧
      (mergeTemplates (some ⟨some ⟨some "", none, none⟩, none, none⟩)).get
          ReminderChannel.whatsapp TemplateType.reminder ≠ "" ∧
      (mergeTemplates (some ⟨some ⟨some "", none, none⟩, none, none⟩)).get
          ReminderChannel.whatsapp TemplateType.reminder =
        defaultTemplates.get ReminderChannel.whatsapp TemplateType.reminder := by
  refine ⟨by decide, by decide, by decide⟩

/-- C8 amended: an absent payload yields the defaults unchanged; every
`(channel, type)` pair absent from the payload is the hardcoded default
for that pair, unchanged; and every pair present in the payload with a
non-empty value is taken from the payload (a pair present with the empty
string falls back to the default, see the counterexample). -/
theorem c8_merge_defaults :
    (mergeTemplates none = defaultTemplates) ∧
      (∀ (inc : IncomingMap) (ch : ReminderChannel) (ty : TemplateType),
          inc.get ch ty = none →
          (mergeTemplates (some inc)).get ch ty = defaultTemplates.get ch ty) ∧
      ∀ (inc : IncomingMap) (ch : ReminderChannel) (ty : TemplateType) (s : String),
        inc.get ch ty = some s → s ≠ "" →
        (mergeTemplates (some inc)).get ch ty = s := by
  refine ⟨rfl, ?_, ?_⟩
  · intro inc ch ty h
    rw [mergeTemplates_get, h, jsOrDefault_none]
  · intro inc ch ty s h hs
    rw [mergeTemplates_get, h, jsOrDefault_some_ne s _ hs]

/-- Witness for the amended C8: a payload overriding only the
whatsapp/reminder pair keeps every other pair at its default and takes
the overridden pair from the payload. -/
theorem c8_merge_defaults_witness :
    (mergeTemplates (some ⟨some ⟨some "Oi!", none, none⟩, none, none⟩)).get
        ReminderChannel.whatsapp TemplateType.reminder = "Oi!" ∧
      (mergeTemplates (some ⟨some ⟨some "Oi!", none, none⟩, none, none⟩)).get
          ReminderChannel.sms TemplateType.reminder =
        defaultTemplates.get ReminderChannel.sms TemplateType.reminder ∧
      (mergeTemplates (some ⟨some ⟨some "Oi!", none, none⟩, none, none⟩)).get
          ReminderChannel.whatsapp TemplateType.reactivation =
        defaultTemplates.get ReminderChannel.whatsapp TemplateType.reactivation :=
  ⟨c8_merge_defaults.2.2 ⟨some ⟨some "Oi!", none, none⟩, none, none⟩
      ReminderChannel.whatsapp TemplateType.reminder "Oi!" (by decide) (by decide),
    c8_merge_defaults.2.1 ⟨some ⟨some "Oi!", none, none⟩, none, none⟩
      ReminderChannel.sms TemplateType.reminder (by decide),
    c8_merge_defaults.2.1 ⟨some ⟨some "Oi!", none, none⟩, none, none⟩
      ReminderChannel.whatsapp TemplateType.reactivation (by decide)⟩

/-- C9: non-emptiness is an invariant of the merged template set: for
every incoming payload (including an absent one), every `(channel, type)`
pair of the merge result is a non-empty string. -/
theorem c9_merged_nonempty (incoming : Option IncomingMap) (ch : ReminderChannel)
    (ty : TemplateType) : (mergeTemplates incoming).get ch ty ≠ "" := by
  rcases incoming with _ | inc
  · exact defaultTemplates_ne_empty ch ty
  · rw [mergeTemplates_get]
    exact jsOrDefault_ne_empty _ _ (defaultTemplates_ne_empty ch ty)

/-- C10: a pair present in the payload but bound to the empty string is
treated exactly like an absent pair: the merge falls back to the
hardcoded default for that pair (and so, with C9, an override can never
set a template to the empty string). -/
theorem c10_empty_override (inc : IncomingMap) (ch : ReminderChannel) (ty : TemplateType)
    (h : inc.get ch ty = some "") :
    (mergeTemplates (some inc)).get ch ty = defaultTemplates.get ch ty ∧
      (mergeTemplates (some inc)).get ch ty = (mergeTemplates (some ⟨none, none, none⟩)).get ch ty := by
  constructor
  · rw [mergeTemplates_get, h, jsOrDefault_some_empty]
  · rw [mergeTemplates_get, h, jsOrDefault_some_empty, mergeTemplates_get]
    have habs : (⟨none, none, none⟩ : IncomingMap).get ch ty = none := by
      cases ch <;> rfl
    rw [habs, jsOrDefault_none]

/-- Witness for C10. -/
theorem c10_empty_override_witness :
    (mergeTemplates (some ⟨some ⟨none, some "", none⟩, none, none⟩)).get
        ReminderChannel.whatsapp TemplateType.reactivation =
      defaultTemplates.get ReminderChannel.whatsapp TemplateType.reactivation :=
  (c10_empty_override ⟨some ⟨none, some "", none⟩, none, none⟩
    ReminderChannel.whatsapp TemplateType.reactivation (by decide)).1
